import Mathlib

/-!
Verification of the scout full-text search server (coleifer/scout) against
its natural-language specification.  The definitions below are a shallow
embedding of the Python source: database tables become lists of row
structures, and each operation of the source (scout/models.py,
scout/search.py, scout/validator.py, scout/views.py) becomes a Lean
function over an explicit database state.  External libraries used by the
source (werkzeug secure_filename, hashlib/base64, zlib compression,
mimetypes) are passed in as function parameters of the operations that use
them, so theorems quantify over them and state the hypotheses the source
relies on (for example that decompression inverts compression).
-/

namespace Scout

/-- A row of the `main_document` FTS table (scout/models.py, class Document):
`docid` is the internal SQLite rowid, `content` and `identifier` the two
search fields. -/
structure DocumentRow where
  docid : Nat
  content : String
  identifier : Option String
deriving DecidableEq, Repr

/-- A row of `main_metadata` (scout/models.py, class Metadata): key/value
pair owned by a document; `(document, key)` is unique. -/
structure MetadataRow where
  document : Nat
  key : String
  value : String
deriving DecidableEq, Repr

/-- A row of `main_index` (scout/models.py, class Index). -/
structure IndexRow where
  id : Nat
  name : String
deriving DecidableEq, Repr

/-- A row of `main_index_document` (scout/models.py, class IndexDocument):
membership of a document in an index; `(index, document)` is unique. -/
structure IndexDocumentRow where
  index : Nat
  document : Nat
deriving DecidableEq, Repr

/-- A row of the attachment table (scout/models.py, class Attachment).
`timestamp` is modelled as a natural number read from the database clock;
`(document, filename)` is unique. -/
structure AttachmentRow where
  id : Nat
  document : Nat
  hash : String
  filename : String
  mimetype : String
  timestamp : Nat
deriving DecidableEq, Repr

/-- A row of the blobdata table (scout/models.py, class BlobData): a
content-addressed blob; `hash` is the primary key and `data` holds the
compressed payload bytes. -/
structure BlobRow where
  hash : String
  data : List Nat
deriving DecidableEq, Repr

/-- The whole database state.  `clock` models `datetime.datetime.now`
(the default of `Attachment.timestamp`) and `nextAttachmentId` the
autoincrementing primary key of the attachment table. -/
structure DB where
  documents : List DocumentRow
  metadata : List MetadataRow
  indexes : List IndexRow
  indexDocs : List IndexDocumentRow
  attachments : List AttachmentRow
  blobs : List BlobRow
  clock : Nat
  nextAttachmentId : Nat
deriving DecidableEq, Repr

/-! ### Document deletion (scout/views.py, DocumentView.delete)

The view deletes, inside one `database.atomic()` transaction and in this
order: the IndexDocument rows of the document, its Attachment rows, its
Metadata rows, and finally the Document row itself.  Each statement is
embedded as one step function and `delete_document` is their composition
in the order of the source. -/

/-- First delete statement of DocumentView.delete: remove the IndexDocument
rows referencing the document. -/
def deleteIndexDocsStep (db : DB) (docid : Nat) : DB :=
  { db with indexDocs := db.indexDocs.filter (fun r => r.document != docid) }

/-- Second delete statement of DocumentView.delete: remove the Attachment
rows referencing the document. -/
def deleteAttachmentsStep (db : DB) (docid : Nat) : DB :=
  { db with attachments := db.attachments.filter (fun a => a.document != docid) }

/-- Third delete statement of DocumentView.delete: remove the Metadata rows
referencing the document. -/
def deleteMetadataStep (db : DB) (docid : Nat) : DB :=
  { db with metadata := db.metadata.filter (fun m => m.document != docid) }

/-- Fourth statement of DocumentView.delete: `document.delete_instance()`,
removing the Document row itself. -/
def deleteDocumentRowStep (db : DB) (docid : Nat) : DB :=
  { db with documents := db.documents.filter (fun d => d.docid != docid) }

/-- DocumentView.delete (scout/views.py lines 383-399): the transactional
composition of the four deletions, in source order. -/
def delete_document (db : DB) (docid : Nat) : DB :=
  deleteDocumentRowStep (deleteMetadataStep (deleteAttachmentsStep (deleteIndexDocsStep db docid) docid) docid) docid

/-! ### Index membership (scout/models.py, Index.add_to_index)

`IndexDocument.create` raises `IntegrityError` exactly when the unique
`(index, document)` pair already exists; the source catches it and passes,
so a duplicate insert leaves the state unchanged. -/

/-- Index.add_to_index (scout/models.py lines 181-186): insert the
`(index, document)` pair, treating the unique-constraint violation as a
silent no-op. -/
def add_to_index (db : DB) (idxId docid : Nat) : DB :=
  if db.indexDocs.any (fun r => r.index == idxId && r.document == docid) then
    db
  else
    { db with indexDocs := db.indexDocs ++ [⟨idxId, docid⟩] }

/-- Number of IndexDocument rows for a given `(index, document)` pair. -/
def indexDocCount (db : DB) (idxId docid : Nat) : Nat :=
  (db.indexDocs.filter (fun r => r.index == idxId && r.document == docid)).length

theorem indexDocCount_add_to_index (db : DB) (i d : Nat)
    (h : indexDocCount db i d ≤ 1) :
    indexDocCount (add_to_index db i d) i d = 1 := by
  unfold add_to_index indexDocCount at *
  by_cases hc : db.indexDocs.any (fun r => r.index == i && r.document == d)
  · simp only [hc, if_true]
    rcases List.any_eq_true.mp hc with ⟨r, hr, hpr⟩
    have h1 : 1 ≤ (db.indexDocs.filter (fun r => r.index == i && r.document == d)).length := by
      have : r ∈ db.indexDocs.filter (fun r => r.index == i && r.document == d) :=
        List.mem_filter.mpr ⟨hr, hpr⟩
      exact List.length_pos_of_mem this
    omega
  · simp only [hc, if_false]
    have hnone : db.indexDocs.filter (fun r => r.index == i && r.document == d) = [] := by
      rw [List.filter_eq_nil_iff]
      intro r hr
      intro hpr
      exact hc (List.any_eq_true.mpr ⟨r, hr, hpr⟩)
    simp [List.filter_append, hnone]

theorem add_to_index_of_any (db : DB) (i d : Nat)
    (h : (db.indexDocs.any (fun r => r.index == i && r.document == d)) = true) :
    add_to_index db i d = db := by
  unfold add_to_index
  rw [if_pos h]

theorem any_add_to_index (db : DB) (i d : Nat) :
    ((add_to_index db i d).indexDocs.any
      (fun r => r.index == i && r.document == d)) = true := by
  unfold add_to_index
  by_cases hc : (db.indexDocs.any (fun r => r.index == i && r.document == d)) = true
  · rw [if_pos hc]; exact hc
  · rw [if_neg hc]
    exact List.any_eq_true.mpr ⟨⟨i, d⟩, by simp, by simp⟩

theorem add_to_index_idem (db : DB) (i d : Nat) :
    add_to_index (add_to_index db i d) i d = add_to_index db i d :=
  add_to_index_of_any (add_to_index db i d) i d (any_add_to_index db i d)

/-- C6: Calling `add_to_index(D, I)` any number n ≥ 1 of times yields exactly
one IndexDocument row for the pair `(I, D)` (given the unique-constraint
invariant that the database starts with at most one such row), and each
duplicate call is a silent no-op: the second call returns the state of the
first unchanged. -/
theorem add_to_index_exactly_one (db : DB) (i d n : Nat)
    (hinv : indexDocCount db i d ≤ 1) (hn : 0 < n) :
    indexDocCount ((fun s => add_to_index s i d)^[n] db) i d = 1 ∧
    add_to_index (add_to_index db i d) i d = add_to_index db i d := by
  refine ⟨?_, add_to_index_idem db i d⟩
  induction n generalizing db with
  | zero => omega
  | succ m ih =>
    rw [Function.iterate_succ_apply]
    by_cases hm : 0 < m
    · exact ih (add_to_index db i d)
        (le_of_eq (indexDocCount_add_to_index db i d hinv)) hm
    · have : m = 0 := by omega
      subst this
      simpa using indexDocCount_add_to_index db i d hinv

/-- Witness for C6 at a concrete state: the empty database, two calls. -/
theorem add_to_index_exactly_one_witness :
    indexDocCount ((fun s => add_to_index s 1 2)^[2]
      (DB.mk [] [] [] [] [] [] 0 0)) 1 2 = 1 :=
  (add_to_index_exactly_one (DB.mk [] [] [] [] [] [] 0 0) 1 2 2
    (by decide) (by decide)).1

/-- C5: deleting a document removes, in the order IndexDocument, Attachment,
Metadata, Document (the definition of `delete_document` is exactly that
composition), precisely the rows referencing the document: afterwards a row
is present in each of the four tables iff it was present before and does not
reference the deleted document, and the Index and BlobData tables (as well as
the clock and the attachment id counter) are untouched. -/
theorem delete_document_frame (db : DB) (docid : Nat) :
    (delete_document db docid =
      deleteDocumentRowStep (deleteMetadataStep (deleteAttachmentsStep
        (deleteIndexDocsStep db docid) docid) docid) docid) ∧
    (∀ r : IndexDocumentRow,
      r ∈ (delete_document db docid).indexDocs ↔
        r ∈ db.indexDocs ∧ r.document ≠ docid) ∧
    (∀ a : AttachmentRow,
      a ∈ (delete_document db docid).attachments ↔
        a ∈ db.attachments ∧ a.document ≠ docid) ∧
    (∀ m : MetadataRow,
      m ∈ (delete_document db docid).metadata ↔
        m ∈ db.metadata ∧ m.document ≠ docid) ∧
    (∀ d : DocumentRow,
      d ∈ (delete_document db docid).documents ↔
        d ∈ db.documents ∧ d.docid ≠ docid) ∧
    (delete_document db docid).indexes = db.indexes ∧
    (delete_document db docid).blobs = db.blobs ∧
    (delete_document db docid).clock = db.clock ∧
    (delete_document db docid).nextAttachmentId = db.nextAttachmentId := by
  refine ⟨rfl, ?_, ?_, ?_, ?_, rfl, rfl, rfl, rfl⟩ <;>
    intro r <;>
    simp [delete_document, deleteDocumentRowStep, deleteMetadataStep,
      deleteAttachmentsStep, deleteIndexDocsStep, List.mem_filter]

/-! ### Metadata (scout/models.py, Document.get_metadata / set_metadata)

`get_metadata` builds a dict from the `(key, value)` rows of the document;
`set_metadata` executes `Metadata.replace_many(...)` over the provided
pairs, i.e. one upsert (SQLite INSERT OR REPLACE on the unique
`(document, key)` constraint) per pair — it contains no delete of the rows
whose keys are absent from the new mapping.  `delete_metadata` is the
separate delete used by callers (views.py DocumentView.update,
models.py Index.index) before a full replacement. -/

/-- A JSON-ish metadata value as received by the server; the Metadata
`value` column has TEXT affinity, so a non-string value is stored as its
decimal string form. -/
inductive Val where
  | vstr (s : String)
  | vint (n : Int)
deriving DecidableEq, Repr

/-- The string under which a value is stored in (and reported from) the
TEXT-affinity `value` column. -/
def pyStr : Val → String
  | .vstr s => s
  | .vint n => toString n

/-- One `REPLACE INTO` of a metadata row: the row conflicting on the unique
`(document, key)` pair is dropped and the new row inserted. -/
def replaceMeta (db : DB) (docid : Nat) (k v : String) : DB :=
  { db with metadata :=
      db.metadata.filter (fun r => !(r.document == docid && r.key == k)) ++
        [⟨docid, k, v⟩] }

/-- Document.set_metadata (scout/models.py lines 60-65):
`Metadata.replace_many([{key, value, document} for (key, value) in metadata])`,
one upsert per provided pair and nothing else. -/
def set_metadata (db : DB) (docid : Nat) (m : List (String × Val)) : DB :=
  m.foldl (fun acc kv => replaceMeta acc docid kv.1 (pyStr kv.2)) db

/-- Document.delete_metadata (scout/models.py lines 67-68). -/
def delete_metadata (db : DB) (docid : Nat) : DB :=
  { db with metadata := db.metadata.filter (fun r => r.document != docid) }

/-- The mapping returned by Document.get_metadata (scout/models.py lines
54-58), applied to one key: the value of the (unique) metadata row of the
document with that key. -/
def lookupMeta (db : DB) (docid : Nat) (k : String) : Option String :=
  (db.metadata.find? (fun r => r.document == docid && r.key == k)).map (·.value)

theorem lookupMeta_replaceMeta_self (db : DB) (docid : Nat) (k v : String) :
    lookupMeta (replaceMeta db docid k v) docid k = some v := by
  unfold lookupMeta replaceMeta
  rw [List.find?_append]
  have hnone : (db.metadata.filter
      (fun r => !(r.document == docid && r.key == k))).find?
      (fun r => r.document == docid && r.key == k) = none := by
    rw [List.find?_eq_none]
    intro r hr
    have hmem := (List.mem_filter.mp hr).2
    intro hp
    rw [hp] at hmem
    exact absurd hmem (by decide)
  have hone : (List.find? (fun r => r.document == docid && r.key == k)
      [(⟨docid, k, v⟩ : MetadataRow)]) = some ⟨docid, k, v⟩ :=
    List.find?_cons_of_pos _ (by simp)
  rw [hnone, hone]
  rfl

theorem find?_filter_of_implies {α : Type} (p q : α → Bool)
    (hpq : ∀ a, p a = true → q a = true) (l : List α) :
    (l.filter q).find? p = l.find? p := by
  induction l with
  | nil => rfl
  | cons a l ih =>
    by_cases hpa : p a = true
    · rw [List.filter_cons_of_pos (hpq a hpa), List.find?_cons_of_pos _ hpa,
        List.find?_cons_of_pos _ hpa]
    · rw [List.find?_cons_of_neg _ hpa]
      by_cases hqa : q a = true
      · rw [List.filter_cons_of_pos hqa, List.find?_cons_of_neg _ hpa, ih]
      · rw [List.filter_cons_of_neg hqa, ih]

theorem lookupMeta_replaceMeta_other (db : DB) (docid d2 : Nat) (k v k2 : String)
    (h : ¬(d2 = docid ∧ k2 = k)) :
    lookupMeta (replaceMeta db docid k v) d2 k2 = lookupMeta db d2 k2 := by
  unfold lookupMeta replaceMeta
  rw [List.find?_append]
  have hpred : (((⟨docid, k, v⟩ : MetadataRow).document == d2 &&
      (⟨docid, k, v⟩ : MetadataRow).key == k2)) = false := by
    by_cases hd : docid = d2
    · have hk : (k == k2) = false :=
        beq_eq_false_iff_ne.mpr (fun hkk => h ⟨hd.symm, hkk.symm⟩)
      simp [hk]
    · have hdb : (docid == d2) = false := beq_eq_false_iff_ne.mpr hd
      simp [hdb]
  have hlast : (List.find? (fun r => r.document == d2 && r.key == k2)
      [(⟨docid, k, v⟩ : MetadataRow)]) = none := by
    simp [List.find?, hpred]
  rw [hlast]
  have hdisj : ∀ a : MetadataRow, (a.document == d2 && a.key == k2) = true →
      (!(a.document == docid && a.key == k)) = true := by
    intro a hpa
    simp only [Bool.and_eq_true, beq_iff_eq] at hpa
    by_contra hq
    have hq2 : (a.document == docid && a.key == k) = true := by
      cases hb : (a.document == docid && a.key == k) with
      | false => exact absurd (by rw [hb]; rfl) hq
      | true => rfl
    simp only [Bool.and_eq_true, beq_iff_eq] at hq2
    refine h ⟨?_, ?_⟩
    · rw [← hpa.1]; exact hq2.1
    · rw [← hpa.2]; exact hq2.2
  rw [find?_filter_of_implies (fun r => r.document == d2 && r.key == k2)
    (fun r => !(r.document == docid && r.key == k)) hdisj db.metadata]
  cases hf : db.metadata.find? (fun r => r.document == d2 && r.key == k2) <;> simp

theorem lookup_eq_none_of_not_mem_keys {β : Type} (m : List (String × β))
    (k : String) (h : k ∉ m.map Prod.fst) : List.lookup k m = none := by
  induction m with
  | nil => rfl
  | cons a m ih =>
    obtain ⟨k1, b1⟩ := a
    simp only [List.map_cons, List.mem_cons] at h
    push_neg at h
    have hbeq : (k == k1) = false := beq_eq_false_iff_ne.mpr h.1
    simp [List.lookup, hbeq, ih h.2]

theorem lookupMeta_set_metadata (db : DB) (docid : Nat)
    (m : List (String × Val)) (d2 : Nat) (k : String) :
    (m.map Prod.fst).Nodup →
    lookupMeta (set_metadata db docid m) d2 k =
      if d2 = docid then
        match m.lookup k with
        | some v => some (pyStr v)
        | none => lookupMeta db d2 k
      else lookupMeta db d2 k := by
  induction m generalizing db with
  | nil =>
    intro _
    show lookupMeta db d2 k = _
    split <;> rfl
  | cons kv m ih =>
    intro hm
    obtain ⟨k1, v1⟩ := kv
    simp only [List.map_cons, List.nodup_cons] at hm
    have hstep : set_metadata db docid ((k1, v1) :: m) =
        set_metadata (replaceMeta db docid k1 (pyStr v1)) docid m := rfl
    rw [hstep, ih (replaceMeta db docid k1 (pyStr v1)) hm.2]
    by_cases hd : d2 = docid
    · subst hd
      rw [if_pos rfl, if_pos rfl]
      by_cases hk : k = k1
      · subst hk
        have hcons : List.lookup k ((k, v1) :: m) = some v1 := by
          simp [List.lookup]
        have hnone : List.lookup k m = none :=
          lookup_eq_none_of_not_mem_keys m k hm.1
        rw [hcons, hnone]
        exact lookupMeta_replaceMeta_self db d2 k (pyStr v1)
      · have hbeq : (k == k1) = false := beq_eq_false_iff_ne.mpr hk
        have hcons : List.lookup k ((k1, v1) :: m) = List.lookup k m := by
          simp [List.lookup, hbeq]
        rw [hcons]
        cases hml : List.lookup k m with
        | some v => rfl
        | none =>
          exact lookupMeta_replaceMeta_other db d2 d2 k1 (pyStr v1) k
            (fun hc => hk hc.2)
    · rw [if_neg hd, if_neg hd]
      exact lookupMeta_replaceMeta_other db docid d2 k1 (pyStr v1) k
        (fun hc => hd hc.1)

/-- C1 (amended): `set_metadata` merges, it does not clear.  For a mapping M
with pairwise distinct keys, after `set_metadata(D, M)` the metadata of D at
key k is the coerced value of M at k when k occurs in M, and the previous
value otherwise; other documents are untouched.  In particular
`set_metadata(D, {})` changes nothing at all. -/
theorem set_metadata_merge (db : DB) (docid : Nat) (m : List (String × Val))
    (hm : (m.map Prod.fst).Nodup) :
    (∀ k : String,
      lookupMeta (set_metadata db docid m) docid k =
        match m.lookup k with
        | some v => some (pyStr v)
        | none => lookupMeta db docid k) ∧
    (∀ (d2 : Nat) (k : String), d2 ≠ docid →
      lookupMeta (set_metadata db docid m) d2 k = lookupMeta db d2 k) ∧
    set_metadata db docid [] = db := by
  refine ⟨?_, ?_, rfl⟩
  · intro k
    rw [lookupMeta_set_metadata db docid m docid k hm, if_pos rfl]
  · intro d2 k hd2
    rw [lookupMeta_set_metadata db docid m d2 k hm, if_neg hd2]

/-- A concrete database with one document (docid 1) carrying the single
metadata pair a ↦ 1, used to exhibit the behaviour of `set_metadata`. -/
def dbMeta : DB :=
  { documents := [⟨1, "test doc", none⟩]
    metadata := [⟨1, "a", "1"⟩]
    indexes := []
    indexDocs := []
    attachments := []
    blobs := []
    clock := 0
    nextAttachmentId := 1 }

/-- Counterexample to C1 as stated: with prior metadata a ↦ 1,
`set_metadata(D, (b ↦ 2))` leaves a ↦ 1 in place (the claimed result map
str-coerced from M has no key a), and `set_metadata(D, {})` removes
nothing. -/
theorem set_metadata_not_full_replace :
    lookupMeta (set_metadata dbMeta 1 [("b", Val.vint 2)]) 1 "a" = some "1" ∧
    ([("b", Val.vint 2)].map (fun kv => (kv.1, pyStr kv.2))).lookup "a" = none ∧
    set_metadata dbMeta 1 [] = dbMeta ∧
    lookupMeta dbMeta 1 "a" = some "1" := by
  refine ⟨by decide, by decide, rfl, by decide⟩

/-- Witness for the amended C1 on concrete data: upserting b ↦ 2 keeps
a ↦ 1, adds b ↦ 2, and leaves other documents alone. -/
theorem set_metadata_merge_witness :
    lookupMeta (set_metadata dbMeta 1 [("b", Val.vint 2)]) 1 "b" = some "2" ∧
    lookupMeta (set_metadata dbMeta 1 [("b", Val.vint 2)]) 1 "a" = some "1" ∧
    lookupMeta (set_metadata dbMeta 1 [("b", Val.vint 2)]) 2 "a" = none := by
  have h := set_metadata_merge dbMeta 1 [("b", Val.vint 2)] (by decide)
  refine ⟨?_, ?_, ?_⟩
  · rw [h.1 "b"]; decide
  · rw [h.1 "a"]; decide
  · rw [h.2.1 2 "a" (by decide)]; decide

/-! ### Authentication (scout/views.py, authenticate_request / ScoutView.dispatch_request)

`authenticate_request` reads the configured key from
`app.config[AUTHENTICATION]` (a falsy value disables the check), then the
`key` header and, only when the header yielded nothing truthy, the `key`
query parameter.  Headers and query parameters are modelled as
`Option String` (absent or present); Python truthiness makes a present
empty string behave like absence. -/

/-- A Python-truthy string read: `some s` with nonempty `s`, else nothing. -/
def truthy : Option String → Option String
  | some s => if s ≠ "" then some s else none
  | none => none

/-- authenticate_request (scout/views.py lines 63-74): with a configured
key, take the `key` header if truthy, else the `key` query parameter if
truthy, and compare the result against the configured key. -/
def authenticate_request (auth : String) (headerKey queryKey : Option String) : Bool :=
  if auth ≠ "" then
    let apiKey := truthy headerKey
    let apiKey := match apiKey with
      | none => truthy queryKey
      | some s => some s
    apiKey == some auth
  else
    true

/-- The observable outcome of ScoutView.dispatch_request (scout/views.py
lines 91-94): either the 401 plain-text rejection or dispatch to the
method handler. -/
inductive AuthOutcome where
  | unauthorized (body : String) (status : Nat)
  | handled
deriving DecidableEq, Repr

/-- ScoutView.dispatch_request: reject with `('Invalid API key', 401)`
unless `authenticate_request` passes. -/
def dispatch_request (auth : String) (headerKey queryKey : Option String) : AuthOutcome :=
  if authenticate_request auth headerKey queryKey then
    .handled
  else
    .unauthorized "Invalid API key" 401

/-- The key a request effectively presents, following the amended reading
of the spec: the `key` header when non-empty, otherwise the `key` query
parameter when non-empty. -/
def presentedKey (headerKey queryKey : Option String) : Option String :=
  match truthy headerKey with
  | some s => some s
  | none => truthy queryKey

/-- Counterexample to C3 as stated: the request presents the configured key
"secret" in the `key` query parameter, yet it is rejected with 401, because
the non-empty (wrong) `key` header shadows the query parameter. -/
theorem dispatch_request_header_shadows_query :
    dispatch_request "secret" (some "wrong") (some "secret") =
      AuthOutcome.unauthorized "Invalid API key" 401 ∧
    (some "secret" = some "secret") := by
  exact ⟨by decide, rfl⟩

/-- C3 (amended): with a non-empty configured key, a request is authorized
iff its effectively presented key — the `key` header when non-empty,
otherwise the `key` query parameter when non-empty — equals the configured
key, and otherwise it is answered with 401 and the plain-text body
`Invalid API key`; with no configured key every request is handled. -/
theorem dispatch_request_key_gate (auth : String) (headerKey queryKey : Option String) :
    (auth ≠ "" →
      ((dispatch_request auth headerKey queryKey = AuthOutcome.handled ↔
          presentedKey headerKey queryKey = some auth) ∧
        (presentedKey headerKey queryKey ≠ some auth →
          dispatch_request auth headerKey queryKey =
            AuthOutcome.unauthorized "Invalid API key" 401))) ∧
    (auth = "" → dispatch_request auth headerKey queryKey = AuthOutcome.handled) := by
  constructor
  · intro hauth
    have hpres : (match truthy headerKey with
        | none => truthy queryKey
        | some s => some s) = presentedKey headerKey queryKey := by
      unfold presentedKey
      cases truthy headerKey <;> rfl
    have hdef : authenticate_request auth headerKey queryKey =
        (presentedKey headerKey queryKey == some auth) := by
      unfold authenticate_request
      rw [if_pos hauth]
      show ((match truthy headerKey with
        | none => truthy queryKey
        | some s => some s) == some auth) = _
      rw [hpres]
    constructor
    · unfold dispatch_request
      rw [hdef]
      by_cases hp : presentedKey headerKey queryKey = some auth
      · have : (presentedKey headerKey queryKey == some auth) = true := beq_iff_eq.mpr hp
        rw [this]
        simp [hp]
      · have : (presentedKey headerKey queryKey == some auth) = false :=
          beq_eq_false_iff_ne.mpr hp
        rw [this]
        simp [hp]
    · intro hp
      unfold dispatch_request
      rw [hdef]
      have : (presentedKey headerKey queryKey == some auth) = false :=
        beq_eq_false_iff_ne.mpr hp
      rw [this]
      rfl
  · intro hauth
    subst hauth
    rfl

/-- Witness for C3 (amended) at concrete requests: a correct query-string
key with no header is accepted, and a wrong key is rejected with the 401
text response. -/
theorem dispatch_request_key_gate_witness :
    dispatch_request "secret" none (some "secret") = AuthOutcome.handled ∧
    dispatch_request "secret" none (some "nope") =
      AuthOutcome.unauthorized "Invalid API key" 401 := by
  constructor
  · exact ((dispatch_request_key_gate "secret" none (some "secret")).1
      (by decide)).1.mpr (by decide)
  · exact ((dispatch_request_key_gate "secret" none (some "nope")).1
      (by decide)).2 (by decide)

/-! ### Query-parameter extraction (scout/validator.py, RequestValidator.extract_get_params)
and metadata filter compilation (scout/search.py). -/

/-- Python `str.strip()` on the character list: drop leading and trailing
whitespace. -/
def trimChars (l : List Char) : List Char :=
  ((l.dropWhile Char.isWhitespace).reverse.dropWhile Char.isWhitespace).reverse

/-- Python `str.strip()`. -/
def pyStrip (s : String) : String := String.mk (trimChars s.data)

/-- Python `str.startswith(pre)`. -/
def pyStartsWith (s pre : String) : Bool := pre.data.isPrefixOf s.data

/-- Helper of `pySplit`: accumulate the current chunk (reversed) while
scanning for the separator character. -/
def splitAux (c : Char) : List Char → List Char → List (List Char)
  | [], acc => [acc.reverse]
  | x :: xs, acc =>
    if x = c then acc.reverse :: splitAux c xs []
    else splitAux c xs (x :: acc)

/-- Python `str.split(c)` for a one-character separator. -/
def pySplit (c : Char) (s : String) : List String :=
  (splitAux c s.data []).map String.mk

/-- PROTECTED_KEYS (scout/constants.py lines 6-7): query-string keys
consumed by routing/validation, never metadata filters. -/
def PROTECTED_KEYS : List String :=
  ["page", "q", "key", "ranking", "identifier", "index", "ordering"]

/-- RequestValidator.extract_get_params (scout/validator.py lines 79-83):
the filters map is every query-string key outside PROTECTED_KEYS together
with its list of values. -/
def extract_get_params (args : List (String × List String)) :
    List (String × List String) :=
  args.filter (fun kv => !(PROTECTED_KEYS.contains kv.1))

/-- A filter value as received by DocumentSearch.search through `**filters`:
a plain string, or a list of strings (what `request.args.getlist` yields). -/
inductive FVal where
  | single (s : String)
  | many (vs : List String)
deriving DecidableEq, Repr

/-- The value-side predicate of one compiled metadata comparison (the
`op(Metadata.value, value)` part of `_build_filter_expression`). -/
inductive MAtom where
  | binop (op : String) (value : String)
  | inVals (values : List String)
  | like (pattern : String)
  | regexp (pattern : String)
deriving DecidableEq, Repr

/-- One `(Metadata.key == key) & atom(Metadata.value)` conjunct. -/
structure MCond where
  key : String
  atom : MAtom
deriving DecidableEq, Repr

/-- A compiled per-filter expression: a disjunction of key/value conditions
(one condition per value when the rhs is a list), wrapped by the caller in
an EXISTS sub-query over Metadata. -/
inductive MExpr where
  | cond (c : MCond)
  | disj (a b : MExpr)
deriving DecidableEq, Repr

/-- The metadata keys mentioned by a compiled filter expression. -/
def mexprKeys : MExpr → List String
  | .cond c => [c.key]
  | .disj a b => mexprKeys a ++ mexprKeys b

/-- The split performed by Python `key.rsplit(sep, 1)` for the two-character
separator `__`, at the rightmost occurrence; `none` when the separator does
not occur (the `key.find != -1` test of the source). -/
def splitLastDunder : List Char → Option (List Char × List Char)
  | [] => none
  | c :: rest =>
    match splitLastDunder rest with
    | some (pre, post) => some (c :: pre, post)
    | none =>
      if c = '_' then
        match rest with
        | '_' :: rest2 => some ([], rest2)
        | _ => none
      else none

/-- The keys of the `operations` table of `_build_filter_expression`
(scout/search.py lines 62-74). -/
def OPS : List String :=
  ["eq", "ne", "ge", "gt", "le", "lt", "in", "contains", "startswith",
   "endswith", "regex"]

/-- The op-suffix parsing of `_build_filter_expression` (scout/search.py
lines 75-81): split the filter key at the rightmost `__`; an unknown op
name is a 400 error; no `__` means the `eq` op. -/
def parseKeyOp (key : String) : Except String (String × String) :=
  match splitLastDunder key.data with
  | some (pre, post) =>
    let op := String.mk post
    if OPS.contains op then .ok (String.mk pre, op)
    else .error ("Unrecognized operation: " ++ op)
  | none => .ok (key, "eq")

/-- The op-specific value predicate (scout/search.py lines 60-74): `in`
splits its comma-separated rhs and trims each part; `contains`,
`startswith` and `endswith` build the LIKE patterns of the `**` operator;
`regex` uses the regexp function; the remaining ops compare directly. -/
def applyOp (op : String) (v : String) : MAtom :=
  if op = "in" then .inVals ((pySplit ',' v).map pyStrip)
  else if op = "contains" then .like ("%" ++ v ++ "%")
  else if op = "startswith" then .like (v ++ "%")
  else if op = "endswith" then .like ("%" ++ v)
  else if op = "regex" then .regexp v
  else .binop op v

/-- DocumentSearch._build_filter_expression (scout/search.py lines 58-93):
parse the op out of the key, then build one condition per value (a list rhs
becomes a left-nested OR; `reduce` over an empty list is an error). -/
def build_filter_expression (key : String) (values : FVal) : Except String MExpr :=
  match parseKeyOp key with
  | .error m => .error m
  | .ok (k, op) =>
    match values with
    | .single v => .ok (.cond ⟨k, applyOp op v⟩)
    | .many [] => .error "reduce() of empty sequence with no initial value"
    | .many (v :: vs) =>
      .ok ((vs.map (fun w => MExpr.cond ⟨k, applyOp op w⟩)).foldl MExpr.disj
        (MExpr.cond ⟨k, applyOp op v⟩))

/-- The list comprehension of `get_metadata_filter_expression`: build one
expression per entry of the filters map, first error propagating. -/
def buildAll : List (String × FVal) → Except String (List MExpr)
  | [] => .ok []
  | kv :: rest =>
    match build_filter_expression kv.1 kv.2 with
    | .error m => .error m
    | .ok e =>
      match buildAll rest with
      | .error m => .error m
      | .ok es => .ok (e :: es)

/-- DocumentSearch.get_metadata_filter_expression (scout/search.py lines
51-56): compute the keys outside PROTECTED_KEYS; when that list is
nonempty, AND together (returned here as the list of conjuncts) the
expressions built from ALL entries of the filters map; otherwise return
nothing. -/
def get_metadata_filter_expression (filters : List (String × FVal)) :
    Except String (Option (List MExpr)) :=
  if ((filters.map Prod.fst).filter
      (fun k => !(PROTECTED_KEYS.contains k))).isEmpty then
    .ok none
  else
    match buildAll filters with
    | .error m => .error m
    | .ok es => .ok (some es)

/-! ### Sorting and ranking (scout/search.py, apply_rank_and_sort /
apply_sorting / get_rank_expression). -/

/-- The sortable columns of a document search. -/
inductive SortCol where
  | content
  | docid
  | identifierCol
  | score
deriving DecidableEq, Repr

/-- One ORDER BY term: a column, ascending or descending. -/
structure OrderTerm where
  col : SortCol
  desc : Bool
deriving DecidableEq, Repr

/-- Python `str.lstrip(chars)` for the single char `-`: drop every leading
dash. -/
def lstripDash (s : String) : String :=
  String.mk (s.data.dropWhile (fun c => c = '-'))

/-- One loop iteration of apply_sorting (scout/search.py lines 125-130):
trim the entry, record a `-` prefix as descending, strip the dashes, and
keep the entry only when the remaining identifier is a key of the sort
mapping. -/
def parseSortKey (mapping : List (String × SortCol)) (part : String) :
    Option OrderTerm :=
  (mapping.lookup (lstripDash (pyStrip part))).map
    (fun c => ⟨c, pyStartsWith (pyStrip part) "-"⟩)

/-- DocumentSearch.apply_sorting (scout/search.py lines 122-135): collect
the recognized entries; when none is recognized fall back to the default
key (whose absence from the mapping would be a Python KeyError). -/
def apply_sorting (ordering : List String) (mapping : List (String × SortCol))
    (dflt : String) : Except String (List OrderTerm) :=
  let accum := ordering.filterMap (parseSortKey mapping)
  if accum.isEmpty then
    match mapping.lookup dflt with
    | some c => .ok [⟨c, false⟩]
    | none => .error "KeyError"
  else
    .ok accum

/-- A projected rank expression (scout/search.py lines 112-120): BM25 or
simple rank, each weighting the content column 1.0 and identifier 0.0. -/
inductive RankExpr where
  | bm25ContentOnly
  | rankContentOnly
deriving DecidableEq, Repr

/-- DocumentSearch.get_rank_expression (scout/search.py lines 112-120). -/
def get_rank_expression (ranking : String) : Except String RankExpr :=
  if ranking = "bm25" then .ok .bm25ContentOnly
  else if ranking = "simple" then .ok .rankContentOnly
  else .error ("Unrecognized ranking: " ++ ranking)

/-- The index scope restriction of a search: a single index id, or a
list/sub-query of index ids. -/
inductive IndexScope where
  | one (i : Nat)
  | several (l : List Nat)
deriving DecidableEq, Repr

/-- The predicates accumulated on the document query before ranking and
sorting: the optional FTS MATCH phrase, the optional index restriction and
the optional metadata filter conjuncts. -/
structure QueryBase where
  matchPhrase : Option String
  scope : Option IndexScope
  metaFilters : Option (List MExpr)
deriving DecidableEq, Repr

/-- The compiled search query: its predicates, the projected score
expression (none when unranked) and the ORDER BY list. -/
structure CompiledQuery where
  base : QueryBase
  score : Option RankExpr
  orderBy : List OrderTerm
deriving DecidableEq, Repr

/-- The base sort_options mapping of apply_rank_and_sort (scout/search.py
lines 97-101). -/
def baseSortOptions : List (String × SortCol) :=
  [("content", .content), ("id", .docid), ("identifier", .identifierCol)]

/-- DocumentSearch.apply_rank_and_sort (scout/search.py lines 95-110): when
ranked, resolve the rank expression (error on an unknown ranking), extend
the sort mapping with `score`, switch the default sort to `score`, and
project the score; when unranked keep the base mapping with default `id`
and project no score. -/
def apply_rank_and_sort (q : QueryBase) (ranking : Option String)
    (ordering : List String) : Except String CompiledQuery :=
  match ranking with
  | some r =>
    match get_rank_expression r with
    | .error m => .error m
    | .ok rank =>
      match apply_sorting ordering
          (baseSortOptions ++ [("score", SortCol.score)]) "score" with
      | .error m => .error m
      | .ok ob => .ok ⟨q, some rank, ob⟩
  | none =>
    match apply_sorting ordering baseSortOptions "id" with
    | .error m => .error m
    | .ok ob => .ok ⟨q, none, ob⟩

/-- The failures DocumentSearch.search can raise: InvalidSearchException
for a blank phrase, InvalidRequestException (a 400) from filter or ranking
compilation. -/
inductive SearchError where
  | invalidSearch
  | badRequest (msg : String)
deriving DecidableEq, Repr

/-- DocumentSearch.search (scout/search.py lines 23-49): trim the phrase
and reject it when empty; the `*` sentinel (or ranking `none`) nulls the
ranking, and only a non-`*` phrase contributes the FTS MATCH predicate;
then attach the index scope and the compiled metadata filters and apply
ranking and sorting. -/
def search (phrase : String) (scope : Option IndexScope) (ranking : String)
    (ordering : List String) (filters : List (String × FVal)) :
    Except SearchError CompiledQuery :=
  if pyStrip phrase = "" then .error .invalidSearch
  else
    match get_metadata_filter_expression filters with
    | .error m => .error (.badRequest m)
    | .ok mf =>
      match apply_rank_and_sort
          ⟨if pyStrip phrase = "*" then none else some (pyStrip phrase), scope, mf⟩
          (if pyStrip phrase = "*" ∨ ranking = "none" then none else some ranking)
          ordering with
      | .error m => .error (.badRequest m)
      | .ok q => .ok q

theorem buildAll_spec (filters : List (String × FVal)) (es : List MExpr)
    (h : buildAll filters = .ok es) :
    es.length = filters.length ∧
    ∀ e ∈ es, ∃ kv ∈ filters, build_filter_expression kv.1 kv.2 = .ok e := by
  induction filters generalizing es with
  | nil =>
    unfold buildAll at h
    cases h
    simp
  | cons kv rest ih =>
    unfold buildAll at h
    cases hb : build_filter_expression kv.1 kv.2 with
    | error m => rw [hb] at h; cases h
    | ok e =>
      rw [hb] at h
      cases hr : buildAll rest with
      | error m => rw [hr] at h; cases h
      | ok es0 =>
        rw [hr] at h
        cases h
        obtain ⟨hlen, hmem⟩ := ih es0 hr
        constructor
        · simp [hlen]
        · intro e2 he2
          rcases List.mem_cons.mp he2 with he2 | he2
          · exact ⟨kv, List.mem_cons_self kv rest, he2 ▸ hb⟩
          · obtain ⟨kv2, hkv2, hbv2⟩ := hmem e2 he2
            exact ⟨kv2, List.mem_cons_of_mem kv hkv2, hbv2⟩

/-- C2 counterexample: a filters mapping holding the reserved key `page`
alongside the non-reserved key `color` compiles to a conjunction whose
first predicate filters on the metadata key `page` — a reserved key used
as a metadata filter, contradicting the claim. -/
theorem filter_expression_uses_reserved_key :
    get_metadata_filter_expression
        [("page", .single "2"), ("color", .single "red")] =
      .ok (some [.cond ⟨"page", .binop "eq" "2"⟩,
                 .cond ⟨"color", .binop "eq" "red"⟩]) ∧
    "page" ∈ PROTECTED_KEYS ∧
    mexprKeys (.cond ⟨"page", .binop "eq" "2"⟩) = ["page"] :=
  ⟨rfl, by decide, rfl⟩

/-- C2 (amended): the validator never places a reserved key into the
filters map; `get_metadata_filter_expression` returns no expression when
every key of the mapping is reserved; but when it does return an
expression it builds exactly one predicate per entry of the mapping —
reserved-key entries included — so reserved keys stay out of metadata
filtering only because the validator strips them first. -/
theorem protected_keys_stripped_by_validator
    (args : List (String × List String)) (filters : List (String × FVal))
    (es : List MExpr) :
    (∀ k ∈ (extract_get_params args).map Prod.fst, k ∉ PROTECTED_KEYS) ∧
    ((∀ k ∈ filters.map Prod.fst, k ∈ PROTECTED_KEYS) →
      get_metadata_filter_expression filters = .ok none) ∧
    (get_metadata_filter_expression filters = .ok (some es) →
      es.length = filters.length ∧
      ∀ e ∈ es, ∃ kv ∈ filters, build_filter_expression kv.1 kv.2 = .ok e) := by
  refine ⟨?_, ?_, ?_⟩
  · intro k hk
    rw [List.mem_map] at hk
    obtain ⟨kv, hkv, rfl⟩ := hk
    have hcond := (List.mem_filter.mp hkv).2
    simp only [Bool.not_eq_true'] at hcond
    intro hmem
    have hc : PROTECTED_KEYS.contains kv.1 = true := List.elem_iff.mpr hmem
    rw [hcond] at hc
    cases hc
  · intro hall
    have hnil : (filters.map Prod.fst).filter
        (fun k => !(PROTECTED_KEYS.contains k)) = [] := by
      rw [List.filter_eq_nil_iff]
      intro k hkmem
      have hc : PROTECTED_KEYS.contains k = true :=
        List.elem_iff.mpr (hall k hkmem)
      rw [hc]
      decide
    unfold get_metadata_filter_expression
    rw [hnil]
    rfl
  · intro h
    unfold get_metadata_filter_expression at h
    by_cases hemp : ((filters.map Prod.fst).filter
        (fun k => !(PROTECTED_KEYS.contains k))).isEmpty = true
    · rw [if_pos hemp] at h
      cases h
    · rw [if_neg hemp] at h
      cases hbuild : buildAll filters with
      | error m => rw [hbuild] at h; cases h
      | ok es0 =>
        rw [hbuild] at h
        cases h
        exact buildAll_spec filters _ hbuild

/-- Witness for C2 (amended) at a concrete request and mapping: the
validator strips `page` and `q`, an all-reserved mapping compiles to no
expression, and a compiled mapping yields one predicate per entry. -/
theorem protected_keys_stripped_by_validator_witness :
    ("color" ∉ PROTECTED_KEYS) ∧
    get_metadata_filter_expression [("page", .single "1")] = .ok none ∧
    ([MExpr.cond ⟨"color", .binop "eq" "red"⟩].length =
      [(("color" : String), FVal.single "red")].length) := by
  refine ⟨?_, ?_, ?_⟩
  · exact (protected_keys_stripped_by_validator
      [("page", ["1"]), ("color", ["red"])] [] []).1 "color" (by decide)
  · exact (protected_keys_stripped_by_validator [] [("page", .single "1")] []).2.1
      (by decide)
  · exact ((protected_keys_stripped_by_validator []
      [("color", .single "red")] [.cond ⟨"color", .binop "eq" "red"⟩]).2.2 rfl).1

/-- C7: a phrase that is empty or whitespace-only after trimming makes
search raise InvalidSearch; no query is ever compiled for it. -/
theorem search_blank_invalid (phrase : String) (scope : Option IndexScope)
    (ranking : String) (ordering : List String)
    (filters : List (String × FVal)) (h : pyStrip phrase = "") :
    search phrase scope ranking ordering filters =
      .error SearchError.invalidSearch := by
  unfold search
  rw [if_pos h]

/-- Witness for C7: the whitespace-only phrase. -/
theorem search_blank_invalid_witness :
    search "   " none "bm25" [] [] = .error SearchError.invalidSearch :=
  search_blank_invalid "   " none "bm25" [] [] (by decide)

/-- C8: for the literal phrase `*` every successfully compiled query
carries no FTS MATCH predicate and no projected score expression
(whatever ranking string was passed), leaving the index scope and the
compiled metadata filters as the only restrictions. -/
theorem search_star_query (scope : Option IndexScope) (ranking : String)
    (ordering : List String) (filters : List (String × FVal))
    (q : CompiledQuery)
    (h : search "*" scope ranking ordering filters = .ok q) :
    q.base.matchPhrase = none ∧ q.score = none ∧ q.base.scope = scope ∧
    get_metadata_filter_expression filters = .ok q.base.metaFilters := by
  unfold search at h
  rw [if_neg (by decide : ¬ pyStrip "*" = "")] at h
  rw [if_pos (by decide : pyStrip "*" = "*")] at h
  rw [if_pos (Or.inl (by decide : pyStrip "*" = "*"))] at h
  cases hmf : get_metadata_filter_expression filters with
  | error m => rw [hmf] at h; cases h
  | ok mf =>
    rw [hmf] at h
    have h2 : (match apply_rank_and_sort ⟨none, scope, mf⟩ none ordering with
      | .error m => Except.error (SearchError.badRequest m)
      | .ok q => Except.ok q) = Except.ok q := h
    cases happ : apply_rank_and_sort ⟨none, scope, mf⟩ none ordering with
    | error m => rw [happ] at h2; cases h2
    | ok q2 =>
      rw [happ] at h2
      have h3 : Except.ok q2 = Except.ok q := h2
      injection h3 with hq
      unfold apply_rank_and_sort at happ
      have happ2 : (match apply_sorting ordering baseSortOptions "id" with
        | .error m => Except.error m
        | .ok ob =>
          Except.ok (⟨⟨none, scope, mf⟩, none, ob⟩ : CompiledQuery)) =
          Except.ok q2 := happ
      cases hsort : apply_sorting ordering baseSortOptions "id" with
      | error m => rw [hsort] at happ2; cases happ2
      | ok ob =>
        rw [hsort] at happ2
        have happ3 : Except.ok (⟨⟨none, scope, mf⟩, none, ob⟩ : CompiledQuery) =
            Except.ok q2 := happ2
        injection happ3 with hq2
        rw [← hq, ← hq2]
        exact ⟨rfl, rfl, rfl, rfl⟩

/-- Witness for C8: a concrete wildcard search compiles with no MATCH and
no score. -/
theorem search_star_query_witness :
    search "*" none "bm25" [] [] =
      .ok ⟨⟨none, none, none⟩, none, [⟨SortCol.docid, false⟩]⟩ ∧
    (⟨⟨none, none, none⟩, none,
      [⟨SortCol.docid, false⟩]⟩ : CompiledQuery).base.matchPhrase = none ∧
    (⟨⟨none, none, none⟩, none,
      [⟨SortCol.docid, false⟩]⟩ : CompiledQuery).score = none := by
  refine ⟨rfl, ?_, ?_⟩
  · exact (search_star_query none "bm25" [] [] _ rfl).1
  · exact (search_star_query none "bm25" [] [] _ rfl).2.1

/-- C9: compiling the ordering list drops an entry whose dash-stripped key
is not in the sort mapping; a `-` prefix on a recognized key yields a
descending term; `score` is recognized only under the mapping extended for
a non-none ranking; and when nothing is recognized the order defaults to
the score column when ranked and to the document id otherwise. -/
theorem apply_sorting_rules (mapping : List (String × SortCol))
    (dflt : String) (pre post ordering : List String) (e : String)
    (c : SortCol) (q : QueryBase) :
    (mapping.lookup (lstripDash (pyStrip e)) = none →
      apply_sorting (pre ++ e :: post) mapping dflt =
        apply_sorting (pre ++ post) mapping dflt) ∧
    (pyStartsWith (pyStrip e) "-" = true →
      mapping.lookup (lstripDash (pyStrip e)) = some c →
      parseSortKey mapping e = some ⟨c, true⟩) ∧
    (parseSortKey baseSortOptions "score" = none) ∧
    (parseSortKey (baseSortOptions ++ [("score", SortCol.score)]) "score" =
      some ⟨SortCol.score, false⟩) ∧
    (ordering.filterMap (parseSortKey baseSortOptions) = [] →
      apply_rank_and_sort q none ordering =
        .ok ⟨q, none, [⟨SortCol.docid, false⟩]⟩) ∧
    (ordering.filterMap
        (parseSortKey (baseSortOptions ++ [("score", SortCol.score)])) = [] →
      apply_rank_and_sort q (some "bm25") ordering =
        .ok ⟨q, some RankExpr.bm25ContentOnly, [⟨SortCol.score, false⟩]⟩) := by
  refine ⟨?_, ?_, by decide, by decide, ?_, ?_⟩
  · intro hlook
    have hparse : parseSortKey mapping e = none := by
      unfold parseSortKey
      rw [hlook]
      rfl
    simp only [apply_sorting, List.filterMap_append,
      List.filterMap_cons_none hparse]
  · intro hstart hlook
    unfold parseSortKey
    rw [hlook]
    simp [hstart]
  · intro hfm
    have hsort : apply_sorting ordering baseSortOptions "id" =
        .ok [⟨SortCol.docid, false⟩] := by
      simp only [apply_sorting, hfm]
      rfl
    unfold apply_rank_and_sort
    rw [hsort]
  · intro hfm
    have hsort : apply_sorting ordering
        (baseSortOptions ++ [("score", SortCol.score)]) "score" =
        .ok [⟨SortCol.score, false⟩] := by
      simp only [apply_sorting, hfm]
      rfl
    unfold apply_rank_and_sort
    show (match get_rank_expression "bm25" with
      | .error m => Except.error m
      | .ok rank =>
        match apply_sorting ordering
            (baseSortOptions ++ [("score", SortCol.score)]) "score" with
        | .error m => Except.error m
        | .ok ob => Except.ok (⟨q, some rank, ob⟩ : CompiledQuery)) = _
    rw [hsort, show get_rank_expression "bm25" =
      Except.ok RankExpr.bm25ContentOnly from rfl]

/-- Witness for C9 at concrete orderings: an unknown key is dropped,
`-id` sorts descending by document id, and a bare `score` ordering under
ranking none falls back to the id default. -/
theorem apply_sorting_rules_witness :
    apply_sorting ["bogus"] baseSortOptions "id" =
      apply_sorting [] baseSortOptions "id" ∧
    parseSortKey baseSortOptions " -id " = some ⟨SortCol.docid, true⟩ ∧
    apply_rank_and_sort ⟨none, none, none⟩ none ["score"] =
      .ok ⟨⟨none, none, none⟩, none, [⟨SortCol.docid, false⟩]⟩ ∧
    apply_rank_and_sort ⟨none, none, none⟩ (some "bm25") [] =
      .ok ⟨⟨none, none, none⟩, some RankExpr.bm25ContentOnly,
        [⟨SortCol.score, false⟩]⟩ := by
  refine ⟨?_, ?_, ?_, ?_⟩
  · exact (apply_sorting_rules baseSortOptions "id" [] [] [] "bogus"
      SortCol.docid ⟨none, none, none⟩).1 (by decide)
  · exact (apply_sorting_rules baseSortOptions "id" [] [] [] " -id "
      SortCol.docid ⟨none, none, none⟩).2.1 (by decide) (by decide)
  · exact (apply_sorting_rules baseSortOptions "id" [] [] ["score"] "x"
      SortCol.docid ⟨none, none, none⟩).2.2.2.2.1 (by decide)
  · exact (apply_sorting_rules baseSortOptions "id" [] [] [] "x"
      SortCol.docid ⟨none, none, none⟩).2.2.2.2.2 (by decide)

/-! ### Attachments and the blob store (scout/models.py, Document.attach;
scout/views.py, AttachmentView.update)

The external helpers used by `attach` enter as parameters: `sfn` is
werkzeug secure_filename, `hashFn` is base64(sha256(bytes)) from
hashlib/base64, `compress` is the zlib level-6 compressor of the
CompressedField declared on BlobData, and `guessType` is
mimetypes.guess_type.  `IntegrityError` on `BlobData.create` fires exactly
when the primary-key hash already exists; on `Attachment.create` exactly
when the unique `(document, filename)` pair already exists. -/

/-- The BlobData insert of Document.attach (scout/models.py lines 82-88):
one insert attempt of `(hash, compress(data))`, the primary-key collision
treated as success. -/
def blobPut (hashFn : List Nat → String) (compress : List Nat → List Nat)
    (db : DB) (data : List Nat) : DB :=
  if db.blobs.any (fun b => b.hash == hashFn data) then db
  else { db with blobs := db.blobs ++ [⟨hashFn data, compress data⟩] }

/-- The Attachment upsert of Document.attach (scout/models.py lines
91-104): create the row (timestamp defaulting to now, id from the
autoincrement counter); on the unique `(document, filename)` collision
fetch that row and update only its hash and mimetype. -/
def attachRow (db : DB) (docid : Nat) (filename dataHash mimetype : String) :
    DB × AttachmentRow :=
  match db.attachments.find?
      (fun a => a.document == docid && a.filename == filename) with
  | some a =>
    let a2 : AttachmentRow := { a with hash := dataHash, mimetype := mimetype }
    ({ db with attachments :=
        db.attachments.map (fun r => if r.id == a.id then a2 else r) }, a2)
  | none =>
    let a : AttachmentRow :=
      ⟨db.nextAttachmentId, docid, dataHash, filename, mimetype, db.clock⟩
    ({ db with
        attachments := db.attachments ++ [a]
        nextAttachmentId := db.nextAttachmentId + 1 }, a)

/-- Document.attach (scout/models.py lines 78-106): normalize the
filename, hash the payload, put the blob, infer the mimetype (default
`text/plain`) and upsert the Attachment row. -/
def attach (sfn : String → String) (hashFn : List Nat → String)
    (compress : List Nat → List Nat) (guessType : String → Option String)
    (db : DB) (docid : Nat) (filename : String) (data : List Nat) :
    DB × AttachmentRow :=
  attachRow (blobPut hashFn compress db data) docid (sfn filename)
    (hashFn data) ((guessType (sfn filename)).getD "text/plain")

theorem attachRow_blobs (db : DB) (docid : Nat) (fn h m : String) :
    (attachRow db docid fn h m).1.blobs = db.blobs := by
  unfold attachRow
  cases db.attachments.find?
      (fun a => a.document == docid && a.filename == fn) <;> rfl

theorem attach_blobs_eq (sfn : String → String) (hashFn : List Nat → String)
    (compress : List Nat → List Nat) (guessType : String → Option String)
    (db : DB) (docid : Nat) (fn : String) (data : List Nat) :
    (attach sfn hashFn compress guessType db docid fn data).1.blobs =
      (blobPut hashFn compress db data).blobs := by
  unfold attach
  rw [attachRow_blobs]

/-- C4: after `attach` the blob table holds a row keyed by the hash of the
payload; under the round-trip law of the compressor and absence of a
colliding foreign row at that hash, every row at that hash decompresses
back to the payload; and a second `attach` of the same bytes (to any
document, under any name) adds no blob row at all, because the primary-key
collision is treated as success. -/
theorem attach_blob_content_addressed (sfn : String → String)
    (hashFn : List Nat → String) (compress decompress : List Nat → List Nat)
    (guessType : String → Option String) (db : DB) (d1 d2 : Nat)
    (n1 n2 : String) (B : List Nat)
    (hrt : decompress (compress B) = B)
    (hcoll : ∀ row ∈ db.blobs, row.hash = hashFn B → row.data = compress B) :
    (∃ row ∈ (attach sfn hashFn compress guessType db d1 n1 B).1.blobs,
      row.hash = hashFn B) ∧
    (∀ row ∈ (attach sfn hashFn compress guessType db d1 n1 B).1.blobs,
      row.hash = hashFn B → decompress row.data = B) ∧
    (attach sfn hashFn compress guessType
        (attach sfn hashFn compress guessType db d1 n1 B).1
        d2 n2 B).1.blobs =
      (attach sfn hashFn compress guessType db d1 n1 B).1.blobs := by
  have hblobs := attach_blobs_eq sfn hashFn compress guessType db d1 n1 B
  have hmain : (∃ row ∈ (blobPut hashFn compress db B).blobs,
        row.hash = hashFn B) ∧
      (∀ row ∈ (blobPut hashFn compress db B).blobs,
        row.hash = hashFn B → decompress row.data = B) := by
    unfold blobPut
    by_cases hc : db.blobs.any (fun b => b.hash == hashFn B) = true
    · rw [if_pos hc]
      obtain ⟨r, hr, hpr⟩ := List.any_eq_true.mp hc
      have hr2 : r.hash = hashFn B := beq_iff_eq.mp hpr
      exact ⟨⟨r, hr, hr2⟩, fun row hrow hh => by rw [hcoll row hrow hh, hrt]⟩
    · rw [if_neg hc]
      constructor
      · exact ⟨⟨hashFn B, compress B⟩, by simp, rfl⟩
      · intro row hrow hh
        rcases List.mem_append.mp hrow with hold | hnew
        · rw [hcoll row hold hh, hrt]
        · have : row = ⟨hashFn B, compress B⟩ := by simpa using hnew
          rw [this, hrt]
  refine ⟨hblobs ▸ hmain.1, hblobs ▸ hmain.2, ?_⟩
  rw [attach_blobs_eq]
  unfold blobPut
  obtain ⟨r, hr, hr2⟩ := hblobs ▸ hmain.1
  have hany : ((attach sfn hashFn compress guessType db d1 n1 B).1.blobs.any
      (fun b => b.hash == hashFn B)) = true :=
    List.any_eq_true.mpr ⟨r, hr, beq_iff_eq.mpr hr2⟩
  rw [if_pos hany]

/-- Witness for C4: identity compression and a constant hash over the
empty database; the second attach leaves the blob table unchanged. -/
theorem attach_blob_content_addressed_witness :
    (∃ row ∈ (attach (fun s => s) (fun _ => "H") (fun l => l) (fun _ => none)
        (DB.mk [] [] [] [] [] [] 0 0) 1 "a.txt" [7, 8]).1.blobs,
      row.hash = "H") ∧
    (attach (fun s => s) (fun _ => "H") (fun l => l) (fun _ => none)
        (attach (fun s => s) (fun _ => "H") (fun l => l) (fun _ => none)
          (DB.mk [] [] [] [] [] [] 0 0) 1 "a.txt" [7, 8]).1
        2 "b.txt" [7, 8]).1.blobs =
      (attach (fun s => s) (fun _ => "H") (fun l => l) (fun _ => none)
        (DB.mk [] [] [] [] [] [] 0 0) 1 "a.txt" [7, 8]).1.blobs := by
  have h := attach_blob_content_addressed (fun s => s) (fun _ => "H")
    (fun l => l) (fun l => l) (fun _ => none)
    (DB.mk [] [] [] [] [] [] 0 0) 1 2 "a.txt" "b.txt" [7, 8] rfl
    (fun row hrow _ => absurd hrow (List.not_mem_nil row))
  exact ⟨h.1, h.2.2⟩

/-- One uploaded file of a multipart request (`request.files`). -/
structure UploadedFile where
  filename : String
  data : List Nat
deriving DecidableEq, Repr

/-- _FileProcessingView.attach_files (scout/views.py lines 273-281): attach
every uploaded file to the document under the name it was uploaded with. -/
def attach_files (sfn : String → String) (hashFn : List Nat → String)
    (compress : List Nat → List Nat) (guessType : String → Option String)
    (db : DB) (docid : Nat) (files : List UploadedFile) : DB :=
  files.foldl
    (fun acc f => (attach sfn hashFn compress guessType acc docid
      f.filename f.data).1) db

/-- AttachmentView.update (scout/views.py lines 444-458), for a resolved
document: look up the attachment named by the URL (404 when absent);
with exactly one uploaded file delete that row and re-attach the upload;
with several files or none, fail with a 400. -/
def attachment_update (sfn : String → String) (hashFn : List Nat → String)
    (compress : List Nat → List Nat) (guessType : String → Option String)
    (db : DB) (docid : Nat) (pk : String) (files : List UploadedFile) :
    Except String DB :=
  match db.attachments.find?
      (fun a => a.document == docid && a.filename == pk) with
  | none => .error "404 Not Found"
  | some att =>
    if files.length == 1 then
      .ok (attach_files sfn hashFn compress guessType
        { db with attachments :=
            db.attachments.filter (fun a => a.id != att.id) }
        docid files)
    else if files.length > 1 then
      .error "Only one attachment permitted when performing update."
    else
      .error "No file attachment found."

/-- C10 (amended): updating an attachment with exactly one uploaded file
deletes the URL-named row and re-attaches the upload under its normalized
filename; when no other attachment of the document already carries that
normalized name, the old row is gone from the result and a fresh row —
new id, timestamp read from the clock at update time, filename the
normalized name of the uploaded file (not the URL filename) — is present.
(When another attachment of the document already bears the normalized
name, attach instead takes its unique-constraint collision path and
updates that row in place; see the collision counterexample.) -/
theorem attachment_update_replaces (sfn : String → String)
    (hashFn : List Nat → String) (compress : List Nat → List Nat)
    (guessType : String → Option String) (db : DB) (docid : Nat)
    (pk : String) (f : UploadedFile) (att : AttachmentRow)
    (hfind : db.attachments.find?
      (fun a => a.document == docid && a.filename == pk) = some att)
    (hfresh : ∀ a ∈ db.attachments, a.id < db.nextAttachmentId)
    (hnocoll : ∀ a ∈ db.attachments, a.document = docid →
      a.filename = sfn f.filename → a = att) :
    ∃ db2, attachment_update sfn hashFn compress guessType db docid pk [f] =
        .ok db2 ∧
      att ∉ db2.attachments ∧
      (⟨db.nextAttachmentId, docid, hashFn f.data, sfn f.filename,
        (guessType (sfn f.filename)).getD "text/plain",
        db.clock⟩ : AttachmentRow) ∈ db2.attachments := by
  have hdel : ∀ a ∈ db.attachments.filter (fun a => a.id != att.id),
      a ∈ db.attachments ∧ a.id ≠ att.id := by
    intro a ha
    have h2 := List.mem_filter.mp ha
    refine ⟨h2.1, ?_⟩
    have := h2.2
    simpa using this
  have hfnone : (db.attachments.filter (fun a => a.id != att.id)).find?
      (fun a => a.document == docid && a.filename == sfn f.filename) = none := by
    rw [List.find?_eq_none]
    intro a ha hp
    obtain ⟨hmem, hid⟩ := hdel a ha
    simp only [Bool.and_eq_true, beq_iff_eq] at hp
    exact hid (congrArg AttachmentRow.id (hnocoll a hmem hp.1 hp.2))
  have hB1 : (blobPut hashFn compress
      { db with attachments := db.attachments.filter (fun a => a.id != att.id) }
      f.data).attachments =
      db.attachments.filter (fun a => a.id != att.id) := by
    unfold blobPut
    split <;> rfl
  have hB2 : (blobPut hashFn compress
      { db with attachments := db.attachments.filter (fun a => a.id != att.id) }
      f.data).nextAttachmentId = db.nextAttachmentId := by
    unfold blobPut
    split <;> rfl
  have hB3 : (blobPut hashFn compress
      { db with attachments := db.attachments.filter (fun a => a.id != att.id) }
      f.data).clock = db.clock := by
    unfold blobPut
    split <;> rfl
  have hatt : (attach_files sfn hashFn compress guessType
      { db with attachments := db.attachments.filter (fun a => a.id != att.id) }
      docid [f]).attachments =
      db.attachments.filter (fun a => a.id != att.id) ++
        [⟨db.nextAttachmentId, docid, hashFn f.data, sfn f.filename,
          (guessType (sfn f.filename)).getD "text/plain", db.clock⟩] := by
    show (attach sfn hashFn compress guessType
      { db with attachments := db.attachments.filter (fun a => a.id != att.id) }
      docid f.filename f.data).1.attachments = _
    unfold attach attachRow
    rw [hB2, hB3, hB1, hfnone]
  refine ⟨attach_files sfn hashFn compress guessType
    { db with attachments := db.attachments.filter (fun a => a.id != att.id) }
    docid [f], ?_, ?_, ?_⟩
  · unfold attachment_update
    rw [hfind]
    rfl
  · intro hmem
    rw [hatt] at hmem
    rcases List.mem_append.mp hmem with hold | hnew
    · exact (hdel att hold).2 rfl
    · have heq : att = ⟨db.nextAttachmentId, docid, hashFn f.data,
          sfn f.filename, (guessType (sfn f.filename)).getD "text/plain",
          db.clock⟩ := by simpa using hnew
      have hlt := hfresh att (List.mem_of_find?_eq_some hfind)
      rw [heq] at hlt
      exact absurd hlt (by simp)
  · rw [hatt]
    exact List.mem_append_right _ (by simp)

/-- C10 counterexample: document 1 holds attachments `a.txt` (id 0,
timestamp 5) and `b.txt` (id 1, timestamp 6); the clock reads 9.  A
one-file update of `a.txt` whose upload normalizes to `b.txt` deletes the
`a.txt` row, but `attach` then hits the unique `(document, filename)`
collision with the surviving `b.txt` row and takes its update path: that
row is updated in place — same id 1, same timestamp 6 (not the clock 9) —
its hash and mimetype replaced, no new row created and the attachment id
counter left at 2.  So the update is not always delete-and-create with a
timestamp reset, refuting the claim as stated. -/
theorem attachment_update_collision_in_place :
    attachment_update (fun _ => "b.txt") (fun _ => "H2") (fun l => l)
        (fun _ => none)
        (DB.mk [] [] [] []
          [⟨0, 1, "hA", "a.txt", "text/plain", 5⟩,
           ⟨1, 1, "hB", "b.txt", "text/plain", 6⟩]
          [] 9 2)
        1 "a.txt" [⟨"b.txt", [7]⟩] =
      .ok (DB.mk [] [] [] []
        [⟨1, 1, "H2", "b.txt", "text/plain", 6⟩]
        [⟨"H2", [7]⟩] 9 2) ∧
    (DB.mk ([] : List DocumentRow) [] [] []
      [⟨1, 1, "H2", "b.txt", "text/plain", 6⟩]
      [⟨"H2", [7]⟩] 9 2).attachments.length = 1 ∧
    (⟨1, 1, "H2", "b.txt", "text/plain", 6⟩ : AttachmentRow).timestamp = 6 ∧
    (6 : Nat) ≠ 9 ∧
    (DB.mk ([] : List DocumentRow) [] [] []
      [⟨1, 1, "H2", "b.txt", "text/plain", 6⟩]
      [⟨"H2", [7]⟩] 9 2).nextAttachmentId = 2 := by
  exact ⟨rfl, rfl, rfl, by decide, rfl⟩

/-- Witness for C10 on concrete data: the attachment `Old.txt` of document
1 (id 0, timestamp 5) is replaced by an upload whose normalized filename
`new_name.txt` differs from the URL filename; the old row disappears and a
fresh row with id 1 and timestamp 9 (the clock at update time) appears. -/
theorem attachment_update_replaces_witness :
    (∃ db2, attachment_update (fun _ => "new_name.txt") (fun _ => "H")
        (fun l => l) (fun _ => none)
        (DB.mk [] [] [] []
          [⟨0, 1, "h0", "Old.txt", "text/plain", 5⟩] [] 9 1)
        1 "Old.txt" [⟨"new name.txt", [7]⟩] = .ok db2 ∧
      (⟨0, 1, "h0", "Old.txt", "text/plain", 5⟩ : AttachmentRow) ∉
        db2.attachments ∧
      (⟨1, 1, "H", "new_name.txt", "text/plain", 9⟩ : AttachmentRow) ∈
        db2.attachments) ∧
    ("new_name.txt" : String) ≠ "Old.txt" := by
  constructor
  · exact attachment_update_replaces (fun _ => "new_name.txt") (fun _ => "H")
      (fun l => l) (fun _ => none)
      (DB.mk [] [] [] [] [⟨0, 1, "h0", "Old.txt", "text/plain", 5⟩] [] 9 1)
      1 "Old.txt" ⟨"new name.txt", [7]⟩
      ⟨0, 1, "h0", "Old.txt", "text/plain", 5⟩
      (by decide) (by decide) (by decide)
  · decide

end Scout
